import Mathlib

/-!
Shallow embedding of the grid construction and rasterization logic of
src/goshawk_habitat/rast/raster.py.

Modelling conventions:

* Python floats are modelled as exact rationals.
* A GeoDataFrame is a list of features, each carrying an optional geometry
  and an attribute payload.  Shapely geometries are modelled by an abstract
  record exposing exactly the observations the code makes: the geometry
  type, emptiness, validity, point containment (the pixel-center burn test)
  and cell intersection (the all_touched burn test).  The zero-distance
  buffer repair is a parameter of type Geom -> Geom.
* Reprojection (to_crs) is modelled as the identity: every claim below is
  about feature collections already expressed in the grid's CRS.
* rasterio.features.rasterize burns shapes in list order, last write wins
  per pixel; a pixel is burned when the geometry contains the pixel center
  (or, with all_touched, touches the pixel footprint).  rasterize validates
  that the fill value and all shape values are representable in the output
  dtype and raises otherwise.
* pandas sort_values with an integer key is modelled by a stable insertion
  sort on the key.  The pandas quicksort is not stable, but reordering rows
  with equal keys never changes a burn outcome here because the key being
  sorted on is the burned value itself.
* Exceptions are modelled by Except with an error enumeration named after
  the error taxonomy of the specification (EmptyInputError, InvalidGridError,
  plus the dtype validation error raised inside rasterize).
-/

attribute [local semireducible] Rat.add Rat.mul Rat.inv Rat.sub

/-- Stable raster settings, mirroring the GridConfig dataclass (the fields
consumed by grid construction and rasterization; output-compression fields are
carried only as metadata). -/
structure GridConfig where
  out_crs : String
  pixel_size : ℚ
  all_touched : Bool
  nodata : ℤ
  dtype : String
  compress : String
  tiled : Bool
  blockxsize : ℤ
  blockysize : ℤ
  predictor : Option ℤ
deriving DecidableEq

/-- The default field values of the GridConfig dataclass. -/
def defaultGridConfig : GridConfig :=
  { out_crs := "EPSG:3005"
    pixel_size := 30
    all_touched := false
    nodata := 0
    dtype := "uint8"
    compress := "DEFLATE"
    tiled := true
    blockxsize := 256
    blockysize := 256
    predictor := some 2 }

/-- Axis-aligned bounding box in target CRS units (GridExtent dataclass). -/
structure GridExtent where
  xmin : ℚ
  ymin : ℚ
  xmax : ℚ
  ymax : ℚ
deriving DecidableEq

/-- Error taxonomy: ValueError raised by _clean_polygons (the spec's
EmptyInputError), ValueError raised by RasterGrid.__init__ (the spec's
InvalidGridError), and the error rasterio.features.rasterize raises when a
value cannot be represented in the output dtype. -/
inductive RasterError where
  | emptyInput
  | invalidGrid
  | dtypeMismatch
deriving DecidableEq

/-- Python's builtin round (ties to even) followed by int(), as in
int(round(w)) of RasterGrid.__init__.  The argument of round is always
integer-or-fraction valued here, and int() on an integral float is exact. -/
def pyRound (q : ℚ) : ℤ :=
  let f := ⌊q⌋
  let r := q - f
  if r < 1/2 then f
  else if (1:ℚ)/2 < r then f + 1
  else if f % 2 = 0 then f else f + 1

/-- The _snap_bounds helper: floor the minimums and ceil the maximums to
whole multiples of the pixel size. -/
def _snap_bounds (minx miny maxx maxy pixel_size : ℚ) : GridExtent :=
  { xmin := (⌊minx / pixel_size⌋ : ℤ) * pixel_size
    ymin := (⌊miny / pixel_size⌋ : ℤ) * pixel_size
    xmax := (⌈maxx / pixel_size⌉ : ℤ) * pixel_size
    ymax := (⌈maxy / pixel_size⌉ : ℤ) * pixel_size }

/-- The canonical grid: configuration, snapped extent and the derived pixel
counts.  The affine transform of the source is determined by extent.xmin,
extent.ymax and the pixel size, which are all retained here. -/
structure RasterGrid where
  config : GridConfig
  extent : GridExtent
  width : ℤ
  height : ℤ
deriving DecidableEq

/-- RasterGrid.__init__: derive width/height from the extent spans by
rounding, and raise (the spec's InvalidGridError) when either is <= 0. -/
def mkRasterGrid (config : GridConfig) (extent : GridExtent) :
    Except RasterError RasterGrid :=
  let width := pyRound ((extent.xmax - extent.xmin) / config.pixel_size)
  let height := pyRound ((extent.ymax - extent.ymin) / config.pixel_size)
  if width ≤ 0 ∨ height ≤ 0 then .error .invalidGrid
  else .ok { config := config, extent := extent, width := width, height := height }

deriving instance DecidableEq for Except

/-- Shapely geometry types distinguished by the code's geom_type filter. -/
inductive GeomType where
  | polygon
  | multiPolygon
  | point
  | lineString
  | other
deriving DecidableEq

/-- Abstract shapely geometry: exactly the observations raster.py makes of a
geometry object.  containsPoint x y is the pixel-center burn test of the
rasterization engine; intersectsCell x y ps is the all_touched burn test for
the pixel footprint of side ps centered at (x, y). -/
structure Geom where
  geomType : GeomType
  isEmpty : Bool
  isValid : Bool
  containsPoint : ℚ → ℚ → Bool
  intersectsCell : ℚ → ℚ → ℚ → Bool

/-- Test of the geom_type.isin(["Polygon", "MultiPolygon"]) filter. -/
def isPolygonal (g : Geom) : Bool :=
  match g.geomType with
  | .polygon => true
  | .multiPolygon => true
  | _ => false

/-- Concrete axis-aligned rectangular polygon, for concrete instances. -/
def boxGeom (x0 y0 x1 y1 : ℚ) : Geom :=
  { geomType := .polygon
    isEmpty := decide (x1 ≤ x0 ∨ y1 ≤ y0)
    isValid := true
    containsPoint := fun x y => decide (x0 < x ∧ x < x1 ∧ y0 < y ∧ y < y1)
    intersectsCell := fun x y ps =>
      decide (x0 < x + ps / 2 ∧ x - ps / 2 < x1 ∧ y0 < y + ps / 2 ∧ y - ps / 2 < y1) }

/-- A model of shapely buffer(0) on an already-valid geometry: geometry-type,
emptiness and coverage are unchanged and the result is valid. -/
def repairValid (g : Geom) : Geom := { g with isValid := true }

/-- One GeoDataFrame row: an optional geometry plus the attribute payload of
the remaining columns. -/
structure Feature (α : Type) where
  geometry : Option Geom
  attrs : α

/-- Combined row filter of _clean_polygons: geometry notnull, not empty, and
of type Polygon or MultiPolygon (three successive filters in the source,
fused into one conjunction). -/
def geomOk : Option Geom → Bool
  | none => false
  | some g => !g.isEmpty && isPolygonal g

/-- Row filter applied after the buffer(0) repair: geometry notnull and not
empty. -/
def geomNonEmpty : Option Geom → Bool
  | none => false
  | some g => !g.isEmpty

/-- The _clean_polygons sanitizer: filter to non-null, non-empty polygonal
rows, raise if none remain, apply the zero-distance buffer repair, drop rows
emptied by the repair, raise if none remain. -/
def _clean_polygons {α : Type} (buffer0 : Geom → Geom) (gdf : List (Feature α)) :
    Except RasterError (List (Feature α)) :=
  let step1 := gdf.filter fun f => geomOk f.geometry
  if step1.isEmpty then .error .emptyInput
  else
    let repaired := step1.map fun f => { f with geometry := f.geometry.map buffer0 }
    let step2 := repaired.filter fun f => geomNonEmpty f.geometry
    if step2.isEmpty then .error .emptyInput
    else .ok step2

/-- The geometry-column image of the sanitizer: _clean_polygons acts on rows
only through their geometry column, and this function is that action on the
bare geometry list. -/
def _clean_geoms (buffer0 : Geom → Geom) (geoms : List (Option Geom)) :
    Except RasterError (List (Option Geom)) :=
  let step1 := geoms.filter geomOk
  if step1.isEmpty then .error .emptyInput
  else
    let step2 := (step1.map (Option.map buffer0)).filter geomNonEmpty
    if step2.isEmpty then .error .emptyInput
    else .ok step2

/-- Whether a geometry burns the pixel whose center is (x, y), under the
grid-wide all_touched flag with pixel size ps. -/
def burnTest (g : Geom) (allTouched : Bool) (ps x y : ℚ) : Bool :=
  if allTouched then g.intersectsCell x y ps else g.containsPoint x y

/-- Value of one pixel after burning the shape list in order onto the fill
value: last burned shape covering the pixel wins. -/
def burnValue (shapes : List (Geom × ℤ)) (fill : ℤ) (allTouched : Bool)
    (ps x y : ℚ) : ℤ :=
  shapes.foldl (fun acc gv => if burnTest gv.1 allTouched ps x y then gv.2 else acc) fill

/-- Representable value range of the numpy dtypes used for outputs. -/
def dtypeRange : String → Option (ℤ × ℤ)
  | "uint8" => some (0, 255)
  | "uint16" => some (0, 65535)
  | "int16" => some (-32768, 32767)
  | "int32" => some (-2147483648, 2147483647)
  | _ => none

/-- Whether a value is representable in the given dtype. -/
def fitsDtype (dtype : String) (v : ℤ) : Bool :=
  match dtypeRange dtype with
  | some (lo, hi) => decide (lo ≤ v ∧ v ≤ hi)
  | none => false

/-- World x coordinate of the center of pixel column c on a grid with left
edge x0 and pixel size ps. -/
def pixelCenterX (x0 ps : ℚ) (c : ℕ) : ℚ := x0 + ((c : ℚ) + 1/2) * ps

/-- World y coordinate of the center of pixel row r on a grid with top edge
ytop and pixel size ps. -/
def pixelCenterY (ytop ps : ℚ) (r : ℕ) : ℚ := ytop - ((r : ℚ) + 1/2) * ps

/-- Model of rasterio.features.rasterize on a grid with top-left world corner
(x0, ytop): validate that fill and every shape value fit the dtype, then burn
the shapes in order over a fill-initialized height x width array.  The pixel
at row r, column c has world center (x0 + (c + 1/2) ps, ytop - (r + 1/2) ps). -/
def rasterize (shapes : List (Geom × ℤ)) (height width : ℕ) (fill : ℤ)
    (x0 ytop ps : ℚ) (allTouched : Bool) (dtype : String) :
    Except RasterError (List (List ℤ)) :=
  if !fitsDtype dtype fill || shapes.any (fun gv => !fitsDtype dtype gv.2) then
    .error .dtypeMismatch
  else
    .ok <| (List.range height).map fun r => (List.range width).map fun c =>
      burnValue shapes fill allTouched ps (pixelCenterX x0 ps c) (pixelCenterY ytop ps r)

/-- Shape list of rasterize_geojson_binary: every surviving geometry paired
with the single burn value. -/
def binShapes {α : Type} (gdf : List (Feature α)) (burn_value : ℤ) :
    List (Geom × ℤ) :=
  gdf.filterMap fun f =>
    match f.geometry with
    | some g => if g.isEmpty then none else some (g, burn_value)
    | none => none

/-- The rasterize_geojson_binary method: sanitize, then burn burn_value for
every polygon onto this grid, background = config.nodata. -/
def rasterize_geojson_binary {α : Type} (grid : RasterGrid) (buffer0 : Geom → Geom)
    (gdf : List (Feature α)) (burn_value : ℤ) : Except RasterError (List (List ℤ)) :=
  Except.bind (_clean_polygons buffer0 gdf) fun cleaned =>
    rasterize (binShapes cleaned burn_value) grid.height.toNat grid.width.toNat
      grid.config.nodata grid.extent.xmin grid.extent.ymax grid.config.pixel_size
      grid.config.all_touched grid.config.dtype

/-- Content of the age attribute cell of one feature: a number, the blank
string, or a missing value. -/
inductive AgeVal where
  | num (q : ℚ)
  | blank
  | missing

/-- The coercion gdf[age_field].replace("", nan).astype(float): blank and
missing cells become NaN (modelled as none), numbers are kept. -/
def coerceAge : AgeVal → Option ℚ
  | .num q => some q
  | .blank => none
  | .missing => none

/-- Boolean mask (age >= lo) & (age < hi); every comparison with NaN is
false. -/
def ageInBand (age : Option ℚ) (lo hi : ℚ) : Bool :=
  match age with
  | some a => decide (lo ≤ a ∧ a < hi)
  | none => false

/-- Boolean mask (age >= lo); comparison with NaN is false. -/
def ageAtLeast (age : Option ℚ) (lo : ℚ) : Bool :=
  match age with
  | some a => decide (lo ≤ a)
  | none => false

/-- The forage_cls column: initialized to not_forage_value, overwritten with
functional_value on the [min_functional, min_high_quality) band mask, then
overwritten with high_quality_value on the >= min_high_quality mask. -/
def forage_cls (not_forage_value functional_value high_quality_value : ℤ)
    (min_functional min_high_quality : ℚ) (age : Option ℚ) : ℤ :=
  let c0 := not_forage_value
  let c1 := if ageInBand age min_functional min_high_quality then functional_value else c0
  if ageAtLeast age min_high_quality then high_quality_value else c1

/-- Class value computed for one sanitized feature row. -/
def featureClass (not_forage_value functional_value high_quality_value : ℤ)
    (min_functional min_high_quality : ℚ) (f : Feature AgeVal) : ℤ :=
  forage_cls not_forage_value functional_value high_quality_value
    min_functional min_high_quality (coerceAge f.attrs)

/-- Shape list of rasterize_geojson_age_classes: pair each sanitized row with
its class, sort ascending on the class column (gdf.sort_values(cls_col)),
then emit (geometry, class) for the non-null, non-empty geometries. -/
def classShapes (not_forage_value functional_value high_quality_value : ℤ)
    (min_functional min_high_quality : ℚ) (cleaned : List (Feature AgeVal)) :
    List (Geom × ℤ) :=
  let withCls := cleaned.map fun f =>
    (f, featureClass not_forage_value functional_value high_quality_value
          min_functional min_high_quality f)
  let sorted := List.insertionSort (fun a b => a.2 ≤ b.2) withCls
  sorted.filterMap fun fc =>
    match fc.1.geometry with
    | some g => if g.isEmpty then none else some (g, fc.2)
    | none => none

/-- The rasterize_geojson_age_classes method: sanitize, coerce the age column,
derive the class column, sort ascending by the raw class value, and burn onto
this grid with fill nodata (the nodata/dtype arguments default to the grid
configuration when none). -/
def rasterize_geojson_age_classes (grid : RasterGrid) (buffer0 : Geom → Geom)
    (gdf : List (Feature AgeVal)) (nodata : Option ℤ) (dtype : Option String)
    (not_forage_value functional_value high_quality_value : ℤ)
    (min_functional min_high_quality : ℚ) : Except RasterError (List (List ℤ)) :=
  Except.bind (_clean_polygons buffer0 gdf) fun cleaned =>
    rasterize
      (classShapes not_forage_value functional_value high_quality_value
        min_functional min_high_quality cleaned)
      grid.height.toNat grid.width.toNat (nodata.getD grid.config.nodata)
      grid.extent.xmin grid.extent.ymax grid.config.pixel_size
      grid.config.all_touched (dtype.getD grid.config.dtype)

/-- When rasterize returns an array, the array is the fill-initialized burn
of the shape list over the height x width pixel lattice. -/
lemma rasterize_ok_elim {shapes : List (Geom × ℤ)} {height width : ℕ} {fill : ℤ}
    {x0 ytop ps : ℚ} {allTouched : Bool} {dtype : String} {arr : List (List ℤ)}
    (h : rasterize shapes height width fill x0 ytop ps allTouched dtype = .ok arr) :
    arr = (List.range height).map fun r => (List.range width).map fun c =>
      burnValue shapes fill allTouched ps (pixelCenterX x0 ps c) (pixelCenterY ytop ps r) := by
  unfold rasterize at h
  by_cases hchk : (!fitsDtype dtype fill || shapes.any fun gv => !fitsDtype dtype gv.2) = true
  · rw [if_pos hchk] at h
    exact Except.noConfusion h
  · rw [if_neg hchk] at h
    exact (Except.ok.injEq _ _ ▸ h).symm

/-- The cell of a rasterize output read through getElem? is the burn value at
that pixel center. -/
lemma rasterize_cell {shapes : List (Geom × ℤ)} {height width : ℕ} {fill : ℤ}
    {x0 ytop ps : ℚ} {allTouched : Bool} {dtype : String} {arr : List (List ℤ)}
    (h : rasterize shapes height width fill x0 ytop ps allTouched dtype = .ok arr)
    {r c : ℕ} {row : List ℤ} {v : ℤ}
    (hrow : arr[r]? = some row) (hv : row[c]? = some v) :
    v = burnValue shapes fill allTouched ps (pixelCenterX x0 ps c) (pixelCenterY ytop ps r) := by
  rw [rasterize_ok_elim h] at hrow
  rw [List.getElem?_map] at hrow
  rcases hr : (List.range height)[r]? with _ | r'
  · rw [hr] at hrow
    exact Option.noConfusion hrow
  · rw [hr] at hrow
    have hr' : r' = r := by
      rcases List.getElem?_eq_some.1 hr with ⟨hlt, he⟩
      simp at he
      exact he.symm
    rw [hr'] at hrow
    have hrow' : row = (List.range width).map fun c =>
        burnValue shapes fill allTouched ps (pixelCenterX x0 ps c) (pixelCenterY ytop ps r) := by
      simpa using hrow.symm
    subst hrow'
    rw [List.getElem?_map] at hv
    rcases hcq : (List.range width)[c]? with _ | c'
    · rw [hcq] at hv
      exact Option.noConfusion hv
    · rw [hcq] at hv
      have hc' : c' = c := by
        rcases List.getElem?_eq_some.1 hcq with ⟨hlt, he⟩
        simp at he
        exact he.symm
      rw [hc'] at hv
      simpa using hv.symm

/-- Every pixel of a burn is either the fill value or the value of one of the
shapes. -/
lemma burnValue_fill_or_shape (shapes : List (Geom × ℤ)) (fill : ℤ)
    (allTouched : Bool) (ps x y : ℚ) :
    burnValue shapes fill allTouched ps x y = fill ∨
    ∃ gv ∈ shapes, burnValue shapes fill allTouched ps x y = gv.2 := by
  induction shapes generalizing fill with
  | nil => exact Or.inl rfl
  | cons a l ih =>
      by_cases hbt : burnTest a.1 allTouched ps x y = true
      · have : burnValue (a :: l) fill allTouched ps x y =
            burnValue l a.2 allTouched ps x y := by
          simp [burnValue, hbt]
        rcases ih a.2 with h | ⟨gv, hgv, he⟩
        · exact Or.inr ⟨a, List.mem_cons_self a l, this.trans h⟩
        · exact Or.inr ⟨gv, List.mem_cons_of_mem a hgv, this.trans he⟩
      · have : burnValue (a :: l) fill allTouched ps x y =
            burnValue l fill allTouched ps x y := by
          simp [burnValue, hbt]
        rcases ih fill with h | ⟨gv, hgv, he⟩
        · exact Or.inl (this.trans h)
        · exact Or.inr ⟨gv, List.mem_cons_of_mem a hgv, this.trans he⟩

/-- Every shape emitted by the binary rasterizer carries the burn value. -/
lemma binShapes_values {α : Type} (gdf : List (Feature α)) (burn_value : ℤ) :
    ∀ gv ∈ binShapes gdf burn_value, gv.2 = burn_value := by
  intro gv hgv
  rcases List.mem_filterMap.1 hgv with ⟨f, _, hf⟩
  rcases hg : f.geometry with _ | g
  · rw [hg] at hf
    exact Option.noConfusion hf
  · rw [hg] at hf
    by_cases he : g.isEmpty = true
    · simp [he] at hf
    · have hf' : (g, burn_value) = gv := by simpa [he] using hf
      rw [← hf']

/-- C7: every successful binary rasterization has the grid's shape and every
cell is either the burn value or the grid's nodata value. -/
theorem binary_output_shape_and_values {α : Type} (grid : RasterGrid)
    (buffer0 : Geom → Geom) (gdf : List (Feature α)) (burn_value : ℤ)
    (arr : List (List ℤ))
    (h : rasterize_geojson_binary grid buffer0 gdf burn_value = .ok arr) :
    arr.length = grid.height.toNat ∧
    (∀ row ∈ arr, row.length = grid.width.toNat) ∧
    (∀ row ∈ arr, ∀ v ∈ row, v = burn_value ∨ v = grid.config.nodata) := by
  unfold rasterize_geojson_binary at h
  cases hclean : _clean_polygons buffer0 gdf with
  | error e =>
      rw [hclean] at h
      exact Except.noConfusion h
  | ok cleaned =>
      rw [hclean] at h
      simp only [Except.bind] at h
      have harr := rasterize_ok_elim h
      subst harr
      refine ⟨by simp, fun row hrow => ?_, fun row hrow v hvm => ?_⟩
      · rcases List.mem_map.1 hrow with ⟨r, _, hre⟩
        rw [← hre]
        simp
      · rcases List.mem_map.1 hrow with ⟨r, _, hre⟩
        rw [← hre] at hvm
        rcases List.mem_map.1 hvm with ⟨c, _, hce⟩
        rcases burnValue_fill_or_shape (binShapes cleaned burn_value)
            grid.config.nodata grid.config.all_touched grid.config.pixel_size
            (pixelCenterX grid.extent.xmin grid.config.pixel_size c)
            (pixelCenterY grid.extent.ymax grid.config.pixel_size r) with hf | ⟨gv, hgv, he⟩
        · right
          rw [← hce]
          exact hf
        · left
          rw [← hce, he, binShapes_values _ _ gv hgv]

/-- Witness for C7 on a one-pixel grid covered by one polygon. -/
theorem binary_output_shape_and_values_witness :
    rasterize_geojson_binary ⟨defaultGridConfig, ⟨0, 0, 30, 30⟩, 1, 1⟩ id
      [⟨some (boxGeom 0 0 30 30), ()⟩] 1 = .ok [[1]] ∧
    ([[(1:ℤ)]].length = (⟨defaultGridConfig, ⟨0, 0, 30, 30⟩, 1, 1⟩ : RasterGrid).height.toNat ∧
     (∀ row ∈ [[(1:ℤ)]],
        row.length = (⟨defaultGridConfig, ⟨0, 0, 30, 30⟩, 1, 1⟩ : RasterGrid).width.toNat) ∧
     (∀ row ∈ [[(1:ℤ)]], ∀ v ∈ row,
        v = 1 ∨ v = (⟨defaultGridConfig, ⟨0, 0, 30, 30⟩, 1, 1⟩ : RasterGrid).config.nodata)) :=
  ⟨by decide,
   binary_output_shape_and_values ⟨defaultGridConfig, ⟨0, 0, 30, 30⟩, 1, 1⟩ id
     [⟨some (boxGeom 0 0 30 30), ()⟩] 1 [[1]] (by decide)⟩

/-- C3: for every bounding box and every pixel_size > 0, the extent returned
by _snap_bounds contains the input box and each of its four coordinates is an
exact integer multiple of pixel_size. -/
theorem snap_bounds_contains_and_aligned (minx miny maxx maxy pixel_size : ℚ)
    (hps : 0 < pixel_size) :
    (_snap_bounds minx miny maxx maxy pixel_size).xmin ≤ minx ∧
    (_snap_bounds minx miny maxx maxy pixel_size).ymin ≤ miny ∧
    maxx ≤ (_snap_bounds minx miny maxx maxy pixel_size).xmax ∧
    maxy ≤ (_snap_bounds minx miny maxx maxy pixel_size).ymax ∧
    (∃ k : ℤ, (_snap_bounds minx miny maxx maxy pixel_size).xmin = k * pixel_size) ∧
    (∃ k : ℤ, (_snap_bounds minx miny maxx maxy pixel_size).ymin = k * pixel_size) ∧
    (∃ k : ℤ, (_snap_bounds minx miny maxx maxy pixel_size).xmax = k * pixel_size) ∧
    (∃ k : ℤ, (_snap_bounds minx miny maxx maxy pixel_size).ymax = k * pixel_size) := by
  have hfloor : ∀ a : ℚ, (⌊a / pixel_size⌋ : ℚ) * pixel_size ≤ a := by
    intro a
    have h1 : (⌊a / pixel_size⌋ : ℚ) ≤ a / pixel_size := Int.floor_le _
    have h2 := mul_le_mul_of_nonneg_right h1 hps.le
    rwa [div_mul_cancel₀ a hps.ne'] at h2
  have hceil : ∀ a : ℚ, a ≤ (⌈a / pixel_size⌉ : ℚ) * pixel_size := by
    intro a
    have h1 : a / pixel_size ≤ (⌈a / pixel_size⌉ : ℚ) := Int.le_ceil _
    have h2 := mul_le_mul_of_nonneg_right h1 hps.le
    rwa [div_mul_cancel₀ a hps.ne'] at h2
  exact ⟨hfloor minx, hfloor miny, hceil maxx, hceil maxy,
    ⟨⌊minx / pixel_size⌋, rfl⟩, ⟨⌊miny / pixel_size⌋, rfl⟩,
    ⟨⌈maxx / pixel_size⌉, rfl⟩, ⟨⌈maxy / pixel_size⌉, rfl⟩⟩

/-- Witness for C3 at bounds (1, 2, 4, 5) with pixel size 3. -/
theorem snap_bounds_contains_and_aligned_witness :
    0 < (3:ℚ) ∧
    ((_snap_bounds 1 2 4 5 3).xmin ≤ 1 ∧
     (_snap_bounds 1 2 4 5 3).ymin ≤ 2 ∧
     4 ≤ (_snap_bounds 1 2 4 5 3).xmax ∧
     5 ≤ (_snap_bounds 1 2 4 5 3).ymax ∧
     (∃ k : ℤ, (_snap_bounds 1 2 4 5 3).xmin = k * 3) ∧
     (∃ k : ℤ, (_snap_bounds 1 2 4 5 3).ymin = k * 3) ∧
     (∃ k : ℤ, (_snap_bounds 1 2 4 5 3).xmax = k * 3) ∧
     (∃ k : ℤ, (_snap_bounds 1 2 4 5 3).ymax = k * 3)) :=
  ⟨by decide, snap_bounds_contains_and_aligned 1 2 4 5 3 (by decide)⟩

/-- C4: for a positive pixel size, grid construction sets
width = round(xspan / pixel_size) and height = round(yspan / pixel_size) and
fails with InvalidGridError exactly when either rounded dimension is <= 0. -/
theorem mkRasterGrid_dims_and_failure (config : GridConfig) (extent : GridExtent)
    (hps : 0 < config.pixel_size) :
    (∀ g, mkRasterGrid config extent = .ok g →
        g.width = pyRound ((extent.xmax - extent.xmin) / config.pixel_size) ∧
        g.height = pyRound ((extent.ymax - extent.ymin) / config.pixel_size)) ∧
    (mkRasterGrid config extent = .error .invalidGrid ↔
        pyRound ((extent.xmax - extent.xmin) / config.pixel_size) ≤ 0 ∨
        pyRound ((extent.ymax - extent.ymin) / config.pixel_size) ≤ 0) := by
  by_cases hc : pyRound ((extent.xmax - extent.xmin) / config.pixel_size) ≤ 0 ∨
      pyRound ((extent.ymax - extent.ymin) / config.pixel_size) ≤ 0
  · constructor
    · intro g hg
      simp only [mkRasterGrid, if_pos hc] at hg
      exact Except.noConfusion hg
    · simp only [mkRasterGrid, if_pos hc]
      exact iff_of_true trivial hc
  · constructor
    · intro g hg
      simp only [mkRasterGrid, if_neg hc, Except.ok.injEq] at hg
      subst hg
      exact ⟨rfl, rfl⟩
    · simp only [mkRasterGrid, if_neg hc]
      exact ⟨fun h => absurd h (by simp), fun h => absurd h hc⟩

/-- Witness for C4 on the default configuration and a degenerate extent. -/
theorem mkRasterGrid_dims_and_failure_witness :
    0 < defaultGridConfig.pixel_size ∧
    ((∀ g, mkRasterGrid defaultGridConfig ⟨5, 5, 5, 5⟩ = .ok g →
        g.width = pyRound (((5:ℚ) - 5) / defaultGridConfig.pixel_size) ∧
        g.height = pyRound (((5:ℚ) - 5) / defaultGridConfig.pixel_size)) ∧
     (mkRasterGrid defaultGridConfig ⟨5, 5, 5, 5⟩ = .error .invalidGrid ↔
        pyRound (((5:ℚ) - 5) / defaultGridConfig.pixel_size) ≤ 0 ∨
        pyRound (((5:ℚ) - 5) / defaultGridConfig.pixel_size) ≤ 0)) :=
  ⟨by decide, mkRasterGrid_dims_and_failure defaultGridConfig ⟨5, 5, 5, 5⟩ (by decide)⟩

/-- C5: with ordered thresholds, the derived class is not_forage below
min_functional, functional on [min_functional, min_high_quality), high_quality
at or above min_high_quality, and blank or missing ages (NaN after coercion)
fail every threshold comparison and land in the not_forage class. -/
theorem forage_cls_threshold_rules (nf fv hv : ℤ) (mf mh : ℚ) (hthr : mf ≤ mh) :
    (∀ q : ℚ, q < mf → forage_cls nf fv hv mf mh (coerceAge (.num q)) = nf) ∧
    (∀ q : ℚ, mf ≤ q → q < mh → forage_cls nf fv hv mf mh (coerceAge (.num q)) = fv) ∧
    (∀ q : ℚ, mh ≤ q → forage_cls nf fv hv mf mh (coerceAge (.num q)) = hv) ∧
    forage_cls nf fv hv mf mh (coerceAge .blank) = nf ∧
    forage_cls nf fv hv mf mh (coerceAge .missing) = nf := by
  refine ⟨fun q hq => ?_, fun q hq1 hq2 => ?_, fun q hq => ?_, rfl, rfl⟩
  · have h1 : ¬ (mf ≤ q ∧ q < mh) := fun h => absurd hq (not_lt.2 h.1)
    have h2 : ¬ mh ≤ q := not_le.2 (lt_of_lt_of_le hq hthr)
    simp [forage_cls, ageInBand, ageAtLeast, coerceAge, h1, h2]
  · have h1 : mf ≤ q ∧ q < mh := ⟨hq1, hq2⟩
    have h2 : ¬ mh ≤ q := not_le.2 hq2
    simp [forage_cls, ageInBand, ageAtLeast, coerceAge, h1, h2]
  · simp [forage_cls, ageInBand, ageAtLeast, coerceAge, hq]

/-- Witness for C5 at the default thresholds and class codes. -/
theorem forage_cls_threshold_rules_witness :
    (40:ℚ) ≤ 80 ∧
    ((∀ q : ℚ, q < 40 → forage_cls 0 2 1 40 80 (coerceAge (.num q)) = 0) ∧
     (∀ q : ℚ, 40 ≤ q → q < 80 → forage_cls 0 2 1 40 80 (coerceAge (.num q)) = 2) ∧
     (∀ q : ℚ, 80 ≤ q → forage_cls 0 2 1 40 80 (coerceAge (.num q)) = 1) ∧
     forage_cls 0 2 1 40 80 (coerceAge .blank) = 0 ∧
     forage_cls 0 2 1 40 80 (coerceAge .missing) = 0) :=
  ⟨by decide, forage_cls_threshold_rules 0 2 1 40 80 (by decide)⟩

/-- A pixel covered by no shape keeps the fill value. -/
lemma burnValue_of_no_cover {shapes : List (Geom × ℤ)} {fill : ℤ}
    {allTouched : Bool} {ps x y : ℚ}
    (h : ∀ gv ∈ shapes, burnTest gv.1 allTouched ps x y = false) :
    burnValue shapes fill allTouched ps x y = fill := by
  induction shapes generalizing fill with
  | nil => rfl
  | cons a l ih =>
      have ha := h a (List.mem_cons_self a l)
      have hstep : burnValue (a :: l) fill allTouched ps x y =
          burnValue l fill allTouched ps x y := by
        simp [burnValue, ha]
      exact hstep.trans (ih fun gv hgv => h gv (List.mem_cons_of_mem a hgv))

/-- If the fill value is v and every shape covering the pixel burns v, the
pixel reads v. -/
lemma burnValue_all_eq {shapes : List (Geom × ℤ)} {fill v : ℤ}
    {allTouched : Bool} {ps x y : ℚ} (hfill : fill = v)
    (h : ∀ gv ∈ shapes, burnTest gv.1 allTouched ps x y = true → gv.2 = v) :
    burnValue shapes fill allTouched ps x y = v := by
  induction shapes generalizing fill with
  | nil => exact hfill
  | cons a l ih =>
      have hacc : (if burnTest a.1 allTouched ps x y then a.2 else fill) = v := by
        by_cases hbt : burnTest a.1 allTouched ps x y = true
        · rw [if_pos hbt]
          exact h a (List.mem_cons_self a l) hbt
        · rw [if_neg hbt]
          exact hfill
      have hstep : burnValue (a :: l) fill allTouched ps x y =
          burnValue l (if burnTest a.1 allTouched ps x y then a.2 else fill)
            allTouched ps x y := rfl
      exact hstep.trans (ih hacc fun gv hgv => h gv (List.mem_cons_of_mem a hgv))

/-- Every sanitized feature originates from an input feature: its geometry is
the buffer(0) repair of the original geometry and its attributes are
untouched. -/
lemma clean_polygons_sound {α : Type} {buffer0 : Geom → Geom}
    {gdf cleaned : List (Feature α)}
    (h : _clean_polygons buffer0 gdf = .ok cleaned) :
    ∀ f ∈ cleaned, ∃ f0 ∈ gdf, ∃ g0 : Geom, f0.geometry = some g0 ∧
      geomOk f0.geometry = true ∧ f.geometry = some (buffer0 g0) ∧
      f.attrs = f0.attrs ∧ geomNonEmpty f.geometry = true := by
  intro f hf
  simp only [_clean_polygons] at h
  by_cases h1 : (gdf.filter fun f => geomOk f.geometry).isEmpty = true
  · rw [if_pos h1] at h
    exact Except.noConfusion h
  · rw [if_neg h1] at h
    by_cases h2 : (((gdf.filter fun f => geomOk f.geometry).map fun f =>
        { f with geometry := f.geometry.map buffer0 }).filter fun f =>
          geomNonEmpty f.geometry).isEmpty = true
    · rw [if_pos h2] at h
      exact Except.noConfusion h
    · rw [if_neg h2] at h
      have hcl : cleaned = ((gdf.filter fun f => geomOk f.geometry).map fun f =>
          { f with geometry := f.geometry.map buffer0 }).filter fun f =>
            geomNonEmpty f.geometry := by
        have := Except.ok.injEq _ _ ▸ h
        exact this.symm
      rw [hcl] at hf
      have hf1 := (List.mem_filter.1 hf).1
      have hfne := (List.mem_filter.1 hf).2
      rcases List.mem_map.1 hf1 with ⟨f1, hf1m, hf1e⟩
      have hf1gdf := (List.mem_filter.1 hf1m).1
      have hf1ok := (List.mem_filter.1 hf1m).2
      rcases hg : f1.geometry with _ | g0
      · rw [hg] at hf1ok
        exact Bool.noConfusion hf1ok
      · refine ⟨f1, hf1gdf, g0, hg, hf1ok, ?_, ?_, hfne⟩
        · rw [← hf1e]
          simp [hg]
        · rw [← hf1e]

/-- Every shape emitted by the class rasterizer is the repaired geometry of a
sanitized feature paired with that feature's derived class. -/
lemma classShapes_sound {nf fv hv : ℤ} {mf mh : ℚ} {cleaned : List (Feature AgeVal)} :
    ∀ gv ∈ classShapes nf fv hv mf mh cleaned,
      ∃ f ∈ cleaned, f.geometry = some gv.1 ∧ gv.2 = featureClass nf fv hv mf mh f := by
  intro gv hgv
  simp only [classShapes] at hgv
  rcases List.mem_filterMap.1 hgv with ⟨fc, hfc, heq⟩
  have hfc' := (List.perm_insertionSort
      (fun a b : Feature AgeVal × ℤ => a.2 ≤ b.2) _).subset hfc
  rcases List.mem_map.1 hfc' with ⟨f, hfm, hfe⟩
  rcases hg : fc.1.geometry with _ | g
  · rw [hg] at heq
    exact Option.noConfusion heq
  · rw [hg] at heq
    by_cases he : g.isEmpty = true
    · simp [he] at heq
    · have heq' : (g, fc.2) = gv := by simpa [he] using heq
      refine ⟨f, hfm, ?_, ?_⟩
      · rw [← heq']
        rw [← hfe] at hg
        exact hg
      · rw [← heq', ← hfe]

/-- C10: with the default nodata 0 and default not_forage code 0, a pixel
covered by no polygon and a pixel all of whose covering polygons are
not_forage both read 0 in the class raster, so the two cases are
indistinguishable. -/
theorem nodata_and_not_forage_indistinguishable (grid : RasterGrid)
    (buffer0 : Geom → Geom) (gdf : List (Feature AgeVal)) (arr : List (List ℤ))
    (hnod : grid.config.nodata = 0)
    (h : rasterize_geojson_age_classes grid buffer0 gdf none none 0 2 1 40 80 = .ok arr)
    (r c : ℕ) (row : List ℤ) (v : ℤ)
    (hrow : arr[r]? = some row) (hv : row[c]? = some v) :
    ((∀ f ∈ gdf, ∀ g : Geom, f.geometry = some g →
        burnTest (buffer0 g) grid.config.all_touched grid.config.pixel_size
          (pixelCenterX grid.extent.xmin grid.config.pixel_size c)
          (pixelCenterY grid.extent.ymax grid.config.pixel_size r) = false) → v = 0) ∧
    ((∀ f ∈ gdf, ∀ g : Geom, f.geometry = some g →
        burnTest (buffer0 g) grid.config.all_touched grid.config.pixel_size
          (pixelCenterX grid.extent.xmin grid.config.pixel_size c)
          (pixelCenterY grid.extent.ymax grid.config.pixel_size r) = true →
        forage_cls 0 2 1 40 80 (coerceAge f.attrs) = 0) → v = 0) := by
  unfold rasterize_geojson_age_classes at h
  cases hclean : _clean_polygons buffer0 gdf with
  | error e =>
      rw [hclean] at h
      exact Except.noConfusion h
  | ok cleaned =>
      rw [hclean] at h
      simp only [Except.bind] at h
      have hcell := rasterize_cell h hrow hv
      have hfill : (none : Option ℤ).getD grid.config.nodata = 0 := by
        rw [Option.getD_none, hnod]
      constructor
      · intro hnc
        rw [hcell, ← hfill]
        apply burnValue_of_no_cover
        intro gv hgv
        rcases classShapes_sound gv hgv with ⟨f, hfm, hfg, _⟩
        rcases clean_polygons_sound hclean f hfm with ⟨f0, hf0, g0, hg0, _, hfg', _, _⟩
        have : gv.1 = buffer0 g0 := by
          rw [hfg] at hfg'
          exact Option.some.injEq _ _ ▸ hfg'
        rw [this]
        exact hnc f0 hf0 g0 hg0
      · intro hcls
        rw [hcell]
        apply burnValue_all_eq hfill
        intro gv hgv hbt
        rcases classShapes_sound gv hgv with ⟨f, hfm, hfg, hfc⟩
        rcases clean_polygons_sound hclean f hfm with ⟨f0, hf0, g0, hg0, _, hfg2, hattrs, _⟩
        have hgv1 : gv.1 = buffer0 g0 := by
          rw [hfg] at hfg2
          exact Option.some.injEq _ _ ▸ hfg2
        rw [hgv1] at hbt
        rw [hfc]
        show forage_cls 0 2 1 40 80 (coerceAge f.attrs) = 0
        rw [hattrs]
        exact hcls f0 hf0 g0 hg0 hbt

/-- Witness for C10 on a one-pixel grid with one not_forage polygon. -/
theorem nodata_and_not_forage_indistinguishable_witness :
    (defaultGridConfig.nodata = 0) ∧
    (rasterize_geojson_age_classes ⟨defaultGridConfig, ⟨0, 0, 30, 30⟩, 1, 1⟩ id
      [⟨some (boxGeom 0 0 30 30), .num 10⟩] none none 0 2 1 40 80 = .ok [[0]]) ∧
    ([[(0:ℤ)]][0]? = some [0]) ∧ (([(0:ℤ)])[0]? = some 0) ∧
    (((∀ f ∈ [(⟨some (boxGeom 0 0 30 30), .num 10⟩ : Feature AgeVal)], ∀ g : Geom,
        f.geometry = some g →
        burnTest (id g) defaultGridConfig.all_touched defaultGridConfig.pixel_size
          (pixelCenterX 0 defaultGridConfig.pixel_size 0)
          (pixelCenterY 30 defaultGridConfig.pixel_size 0) = false) → (0:ℤ) = 0) ∧
     ((∀ f ∈ [(⟨some (boxGeom 0 0 30 30), .num 10⟩ : Feature AgeVal)], ∀ g : Geom,
        f.geometry = some g →
        burnTest (id g) defaultGridConfig.all_touched defaultGridConfig.pixel_size
          (pixelCenterX 0 defaultGridConfig.pixel_size 0)
          (pixelCenterY 30 defaultGridConfig.pixel_size 0) = true →
        forage_cls 0 2 1 40 80 (coerceAge f.attrs) = 0) → (0:ℤ) = 0)) :=
  ⟨by decide, by decide, by decide, by decide,
   nodata_and_not_forage_indistinguishable ⟨defaultGridConfig, ⟨0, 0, 30, 30⟩, 1, 1⟩ id
     [⟨some (boxGeom 0 0 30 30), .num 10⟩] [[0]] (by decide) (by decide) 0 0 [0] 0
     (by decide) (by decide)⟩

/-- Passing the pre-repair row filter means having a non-empty polygonal
geometry. -/
lemma geomOk_some {g : Geom} :
    geomOk (some g) = true ↔ g.isEmpty = false ∧ isPolygonal g = true := by
  simp [geomOk, Bool.and_eq_true, Bool.not_eq_true']

/-- C6: the sanitizer fails with EmptyInputError exactly when no feature has
a non-null, non-empty Polygon/MultiPolygon geometry or every such geometry is
emptied by the buffer(0) repair; otherwise every returned feature has a
valid, non-empty polygonal geometry (assuming the repair keeps polygonal
inputs polygonal and makes them valid, as shapely buffer(0) does). -/
theorem clean_polygons_empty_iff_and_output {α : Type} (buffer0 : Geom → Geom)
    (hbuf : ∀ g : Geom, isPolygonal g = true →
      isPolygonal (buffer0 g) = true ∧ (buffer0 g).isValid = true)
    (gdf : List (Feature α)) :
    (_clean_polygons buffer0 gdf = .error .emptyInput ↔
      (∀ f ∈ gdf, geomOk f.geometry = false) ∨
      (∀ f ∈ gdf, geomOk f.geometry = true →
        ∀ g : Geom, f.geometry = some g → (buffer0 g).isEmpty = true)) ∧
    (∀ cleaned, _clean_polygons buffer0 gdf = .ok cleaned →
      ∀ f ∈ cleaned, ∃ g : Geom, f.geometry = some g ∧
        isPolygonal g = true ∧ g.isValid = true ∧ g.isEmpty = false) := by
  constructor
  · simp only [_clean_polygons]
    by_cases h1 : (gdf.filter fun f => geomOk f.geometry).isEmpty = true
    · rw [if_pos h1]
      refine iff_of_true rfl (Or.inl fun f hf => ?_)
      have hnil := List.isEmpty_iff.1 h1
      by_cases hok : geomOk f.geometry = true
      · have : f ∈ gdf.filter fun f => geomOk f.geometry := List.mem_filter.2 ⟨hf, hok⟩
        rw [hnil] at this
        exact absurd this (List.not_mem_nil f)
      · exact Bool.not_eq_true _ ▸ hok
    · rw [if_neg h1]
      by_cases h2 : (((gdf.filter fun f => geomOk f.geometry).map fun f =>
          { f with geometry := f.geometry.map buffer0 }).filter fun f =>
            geomNonEmpty f.geometry).isEmpty = true
      · rw [if_pos h2]
        refine iff_of_true rfl (Or.inr fun f hf hok g hg => ?_)
        have hnil := List.isEmpty_iff.1 h2
        have hmem : ({ f with geometry := f.geometry.map buffer0 } : Feature α) ∈
            (gdf.filter fun f => geomOk f.geometry).map fun f =>
              { f with geometry := f.geometry.map buffer0 } :=
          List.mem_map.2 ⟨f, List.mem_filter.2 ⟨hf, hok⟩, rfl⟩
        by_cases hne : (buffer0 g).isEmpty = true
        · exact hne
        · have hpass : geomNonEmpty (({ f with geometry := f.geometry.map buffer0 } :
              Feature α)).geometry = true := by
            simp [hg, geomNonEmpty, hne]
          have : ({ f with geometry := f.geometry.map buffer0 } : Feature α) ∈
              ((gdf.filter fun f => geomOk f.geometry).map fun f =>
                { f with geometry := f.geometry.map buffer0 }).filter fun f =>
                  geomNonEmpty f.geometry := List.mem_filter.2 ⟨hmem, hpass⟩
          rw [hnil] at this
          exact absurd this (List.not_mem_nil _)
      · rw [if_neg h2]
        refine iff_of_false (by simp) ?_
        rintro (ha | hb)
        · have : gdf.filter (fun f => geomOk f.geometry) = [] :=
            List.filter_eq_nil_iff.2 fun f hf => by simp [ha f hf]
          rw [this] at h1
          exact h1 rfl
        · apply h2
          rw [List.isEmpty_iff]
          apply List.filter_eq_nil_iff.2
          intro f2 hf2
          rcases List.mem_map.1 hf2 with ⟨f, hfm, hfe⟩
          have hfgdf := (List.mem_filter.1 hfm).1
          have hfok := (List.mem_filter.1 hfm).2
          rcases hg : f.geometry with _ | g
          · rw [hg] at hfok
            exact absurd hfok (by simp [geomOk])
          · have hemp := hb f hfgdf hfok g hg
            rw [← hfe]
            simp [hg, geomNonEmpty, hemp]
  · intro cleaned hcl f hf
    rcases clean_polygons_sound hcl f hf with ⟨f0, hf0, g0, hg0, hok0, hfg, _, hne⟩
    have hok0a : geomOk (some g0) = true := hg0 ▸ hok0
    have hpoly0 : isPolygonal g0 = true := (geomOk_some.1 hok0a).2
    rcases hbuf g0 hpoly0 with ⟨hpolyb, hvalb⟩
    have hempb : (buffer0 g0).isEmpty = false := by
      rw [hfg] at hne
      simpa [geomNonEmpty] using hne
    exact ⟨buffer0 g0, hfg, hpolyb, hvalb, hempb⟩

/-- C1: the code does not burn in quality order.  On a one-pixel grid fully
covered by two overlapping polygons, one functional (age 50, class code 2)
and one high_quality (age 90, class code 1), the raw-class-code ascending
sort burns the functional polygon last, so the overlap pixel reads the
functional code 2 instead of the high_quality code 1 required by the claim,
for both insertion orders. -/
theorem age_classes_burned_by_raw_code_not_quality :
    rasterize_geojson_age_classes ⟨defaultGridConfig, ⟨0, 0, 30, 30⟩, 1, 1⟩ id
      [⟨some (boxGeom 0 0 30 30), .num 50⟩, ⟨some (boxGeom 0 0 30 30), .num 90⟩]
      none none 0 2 1 40 80 = .ok [[2]] ∧
    rasterize_geojson_age_classes ⟨defaultGridConfig, ⟨0, 0, 30, 30⟩, 1, 1⟩ id
      [⟨some (boxGeom 0 0 30 30), .num 90⟩, ⟨some (boxGeom 0 0 30 30), .num 50⟩]
      none none 0 2 1 40 80 = .ok [[2]] ∧
    forage_cls 0 2 1 40 80 (coerceAge (.num 50)) = 2 ∧
    forage_cls 0 2 1 40 80 (coerceAge (.num 90)) = 1 ∧
    (2:ℤ) ≠ 1 := by decide

/-- C8: snapping the 300 x 300 AOI at pixel size 30 yields the extent
(0, 0, 300, 300) and a 10 x 10 grid, and a single polygon covering the whole
AOI with age 85 rasterizes under the default thresholds and codes to a
10 x 10 array entirely equal to the high_quality code 1, which differs from
the nodata value 0, so no cell is nodata. -/
theorem end_to_end_300m_square_grid :
    _snap_bounds 0 0 300 300 30 = ⟨0, 0, 300, 300⟩ ∧
    mkRasterGrid defaultGridConfig (_snap_bounds 0 0 300 300 30) =
      .ok ⟨defaultGridConfig, ⟨0, 0, 300, 300⟩, 10, 10⟩ ∧
    rasterize_geojson_age_classes ⟨defaultGridConfig, ⟨0, 0, 300, 300⟩, 10, 10⟩ id
      [⟨some (boxGeom 0 0 300 300), .num 85⟩] none none 0 2 1 40 80 =
      .ok (List.replicate 10 (List.replicate 10 1)) ∧
    (1:ℤ) ≠ defaultGridConfig.nodata := by decide

/-- Witness for C6 with a single valid box polygon and a repair that only
restores validity. -/
theorem clean_polygons_empty_iff_and_output_witness :
    (∀ g : Geom, isPolygonal g = true →
      isPolygonal (repairValid g) = true ∧ (repairValid g).isValid = true) ∧
    ((_clean_polygons repairValid [(⟨some (boxGeom 0 0 30 30), ()⟩ : Feature Unit)] =
        .error .emptyInput ↔
      (∀ f ∈ [(⟨some (boxGeom 0 0 30 30), ()⟩ : Feature Unit)],
        geomOk f.geometry = false) ∨
      (∀ f ∈ [(⟨some (boxGeom 0 0 30 30), ()⟩ : Feature Unit)],
        geomOk f.geometry = true →
        ∀ g : Geom, f.geometry = some g → (repairValid g).isEmpty = true)) ∧
     (∀ cleaned, _clean_polygons repairValid
        [(⟨some (boxGeom 0 0 30 30), ()⟩ : Feature Unit)] = .ok cleaned →
      ∀ f ∈ cleaned, ∃ g : Geom, f.geometry = some g ∧
        isPolygonal g = true ∧ g.isValid = true ∧ g.isEmpty = false)) :=
  ⟨fun _ hp => ⟨hp, rfl⟩,
   clean_polygons_empty_iff_and_output repairValid (fun _ hp => ⟨hp, rfl⟩)
     [⟨some (boxGeom 0 0 30 30), ()⟩]⟩

/-- A geometry passing the pre-repair filter also passes the post-repair
non-empty filter. -/
lemma geomOk_nonEmpty {og : Option Geom} (h : geomOk og = true) :
    geomNonEmpty og = true := by
  cases og with
  | none => exact absurd h (by simp [geomOk])
  | some g =>
      have := (geomOk_some.1 h).1
      simp [geomNonEmpty, this]

/-- On a non-empty collection of rows that all pass the polygon filter and
whose geometries are fixed points of the repair, the sanitizer is the
identity. -/
lemma clean_polygons_of_fixed {α : Type} (buffer0 : Geom → Geom)
    (gdf : List (Feature α)) (hne : gdf ≠ [])
    (hok : ∀ f ∈ gdf, geomOk f.geometry = true)
    (hfix : ∀ f ∈ gdf, f.geometry.map buffer0 = f.geometry) :
    _clean_polygons buffer0 gdf = .ok gdf := by
  simp only [_clean_polygons]
  have hfil1 : gdf.filter (fun f => geomOk f.geometry) = gdf := List.filter_eq_self.2 hok
  rw [hfil1]
  have hnemp : ¬ gdf.isEmpty = true := by
    rw [List.isEmpty_iff]
    exact hne
  rw [if_neg hnemp]
  have hmap : (gdf.map fun f => { f with geometry := f.geometry.map buffer0 }) = gdf := by
    have h0 : ∀ f ∈ gdf,
        ({ f with geometry := f.geometry.map buffer0 } : Feature α) = id f := by
      intro f hf
      cases f with
      | mk geo attrs => simp [hfix _ hf]
    rw [List.map_congr_left h0, List.map_id]
  rw [hmap]
  have hfil2 : gdf.filter (fun f => geomNonEmpty f.geometry) = gdf :=
    List.filter_eq_self.2 fun f hf => geomOk_nonEmpty (hok f hf)
  rw [hfil2, if_neg hnemp]

/-- C2: two overlapping polygons with ages 30 and 90 classify to the
not_forage code 0 and the high_quality code 1, burn in the order 0 then 1 for
either insertion order, and hence every overlap pixel reads the high_quality
code 1 (in particular never 0). -/
theorem overlap_30_90_high_quality_wins (grid : RasterGrid) (buffer0 : Geom → Geom)
    (g1 g2 : Geom) (r c : ℕ)
    (h1 : geomOk (some g1) = true) (h2 : geomOk (some g2) = true)
    (hb1 : buffer0 g1 = g1) (hb2 : buffer0 g2 = g2)
    (hcov1 : burnTest g1 grid.config.all_touched grid.config.pixel_size
      (pixelCenterX grid.extent.xmin grid.config.pixel_size c)
      (pixelCenterY grid.extent.ymax grid.config.pixel_size r) = true)
    (hcov2 : burnTest g2 grid.config.all_touched grid.config.pixel_size
      (pixelCenterX grid.extent.xmin grid.config.pixel_size c)
      (pixelCenterY grid.extent.ymax grid.config.pixel_size r) = true) :
    (∀ arr row v, rasterize_geojson_age_classes grid buffer0
        [⟨some g1, .num 30⟩, ⟨some g2, .num 90⟩] none none 0 2 1 40 80 = .ok arr →
      arr[r]? = some row → row[c]? = some v → v = 1) ∧
    (∀ arr row v, rasterize_geojson_age_classes grid buffer0
        [⟨some g2, .num 90⟩, ⟨some g1, .num 30⟩] none none 0 2 1 40 80 = .ok arr →
      arr[r]? = some row → row[c]? = some v → v = 1) := by
  have hallok1 : ∀ f ∈ [(⟨some g1, .num 30⟩ : Feature AgeVal), ⟨some g2, .num 90⟩],
      geomOk f.geometry = true := by
    intro f hf
    simp only [List.mem_cons, List.not_mem_nil, or_false] at hf
    rcases hf with rfl | rfl
    · exact h1
    · exact h2
  have hallok2 : ∀ f ∈ [(⟨some g2, .num 90⟩ : Feature AgeVal), ⟨some g1, .num 30⟩],
      geomOk f.geometry = true := by
    intro f hf
    simp only [List.mem_cons, List.not_mem_nil, or_false] at hf
    rcases hf with rfl | rfl
    · exact h2
    · exact h1
  have hfix1 : ∀ f ∈ [(⟨some g1, .num 30⟩ : Feature AgeVal), ⟨some g2, .num 90⟩],
      f.geometry.map buffer0 = f.geometry := by
    intro f hf
    simp only [List.mem_cons, List.not_mem_nil, or_false] at hf
    rcases hf with rfl | rfl
    · simp [hb1]
    · simp [hb2]
  have hfix2 : ∀ f ∈ [(⟨some g2, .num 90⟩ : Feature AgeVal), ⟨some g1, .num 30⟩],
      f.geometry.map buffer0 = f.geometry := by
    intro f hf
    simp only [List.mem_cons, List.not_mem_nil, or_false] at hf
    rcases hf with rfl | rfl
    · simp [hb2]
    · simp [hb1]
  have hclean1 := clean_polygons_of_fixed buffer0
    [(⟨some g1, .num 30⟩ : Feature AgeVal), ⟨some g2, .num 90⟩] (by simp) hallok1 hfix1
  have hclean2 := clean_polygons_of_fixed buffer0
    [(⟨some g2, .num 90⟩ : Feature AgeVal), ⟨some g1, .num 30⟩] (by simp) hallok2 hfix2
  have hemp1 : g1.isEmpty = false := (geomOk_some.1 h1).1
  have hemp2 : g2.isEmpty = false := (geomOk_some.1 h2).1
  have hcls30 : featureClass 0 2 1 40 80 (⟨some g1, .num 30⟩ : Feature AgeVal) = 0 := rfl
  have hcls90 : featureClass 0 2 1 40 80 (⟨some g2, .num 90⟩ : Feature AgeVal) = 1 := rfl
  have hshapes1 : classShapes 0 2 1 40 80
      [(⟨some g1, .num 30⟩ : Feature AgeVal), ⟨some g2, .num 90⟩] = [(g1, 0), (g2, 1)] := by
    simp [classShapes, List.insertionSort, List.orderedInsert, hcls30, hcls90,
      List.filterMap_cons, hemp1, hemp2]
  have hshapes2 : classShapes 0 2 1 40 80
      [(⟨some g2, .num 90⟩ : Feature AgeVal), ⟨some g1, .num 30⟩] = [(g1, 0), (g2, 1)] := by
    simp [classShapes, List.insertionSort, List.orderedInsert, hcls30, hcls90,
      List.filterMap_cons, hemp1, hemp2]
  have hburn : ∀ fill : ℤ, burnValue [(g1, 0), (g2, 1)] fill grid.config.all_touched
      grid.config.pixel_size (pixelCenterX grid.extent.xmin grid.config.pixel_size c)
      (pixelCenterY grid.extent.ymax grid.config.pixel_size r) = 1 := by
    intro fill
    simp [burnValue, hcov2]
  constructor
  · intro arr row v harr hrow hv
    unfold rasterize_geojson_age_classes at harr
    rw [hclean1] at harr
    simp only [Except.bind] at harr
    rw [hshapes1] at harr
    rw [rasterize_cell harr hrow hv]
    exact hburn _
  · intro arr row v harr hrow hv
    unfold rasterize_geojson_age_classes at harr
    rw [hclean2] at harr
    simp only [Except.bind] at harr
    rw [hshapes2] at harr
    rw [rasterize_cell harr hrow hv]
    exact hburn _

/-- Witness for C2 on a one-pixel grid with two overlapping boxes. -/
theorem overlap_30_90_high_quality_wins_witness :
    geomOk (some (boxGeom 0 0 30 30)) = true ∧
    geomOk (some (boxGeom 0 0 20 20)) = true ∧
    id (boxGeom 0 0 30 30) = boxGeom 0 0 30 30 ∧
    id (boxGeom 0 0 20 20) = boxGeom 0 0 20 20 ∧
    burnTest (boxGeom 0 0 30 30)
      (⟨defaultGridConfig, ⟨0, 0, 30, 30⟩, 1, 1⟩ : RasterGrid).config.all_touched
      (⟨defaultGridConfig, ⟨0, 0, 30, 30⟩, 1, 1⟩ : RasterGrid).config.pixel_size
      (pixelCenterX (⟨defaultGridConfig, ⟨0, 0, 30, 30⟩, 1, 1⟩ : RasterGrid).extent.xmin
        (⟨defaultGridConfig, ⟨0, 0, 30, 30⟩, 1, 1⟩ : RasterGrid).config.pixel_size 0)
      (pixelCenterY (⟨defaultGridConfig, ⟨0, 0, 30, 30⟩, 1, 1⟩ : RasterGrid).extent.ymax
        (⟨defaultGridConfig, ⟨0, 0, 30, 30⟩, 1, 1⟩ : RasterGrid).config.pixel_size 0) = true ∧
    burnTest (boxGeom 0 0 20 20)
      (⟨defaultGridConfig, ⟨0, 0, 30, 30⟩, 1, 1⟩ : RasterGrid).config.all_touched
      (⟨defaultGridConfig, ⟨0, 0, 30, 30⟩, 1, 1⟩ : RasterGrid).config.pixel_size
      (pixelCenterX (⟨defaultGridConfig, ⟨0, 0, 30, 30⟩, 1, 1⟩ : RasterGrid).extent.xmin
        (⟨defaultGridConfig, ⟨0, 0, 30, 30⟩, 1, 1⟩ : RasterGrid).config.pixel_size 0)
      (pixelCenterY (⟨defaultGridConfig, ⟨0, 0, 30, 30⟩, 1, 1⟩ : RasterGrid).extent.ymax
        (⟨defaultGridConfig, ⟨0, 0, 30, 30⟩, 1, 1⟩ : RasterGrid).config.pixel_size 0) = true ∧
    ((∀ arr row v, rasterize_geojson_age_classes
        ⟨defaultGridConfig, ⟨0, 0, 30, 30⟩, 1, 1⟩ id
        [⟨some (boxGeom 0 0 30 30), .num 30⟩, ⟨some (boxGeom 0 0 20 20), .num 90⟩]
        none none 0 2 1 40 80 = .ok arr →
      arr[0]? = some row → row[0]? = some v → v = 1) ∧
     (∀ arr row v, rasterize_geojson_age_classes
        ⟨defaultGridConfig, ⟨0, 0, 30, 30⟩, 1, 1⟩ id
        [⟨some (boxGeom 0 0 20 20), .num 90⟩, ⟨some (boxGeom 0 0 30 30), .num 30⟩]
        none none 0 2 1 40 80 = .ok arr →
      arr[0]? = some row → row[0]? = some v → v = 1)) :=
  ⟨by decide, by decide, rfl, rfl, by decide, by decide,
   overlap_30_90_high_quality_wins ⟨defaultGridConfig, ⟨0, 0, 30, 30⟩, 1, 1⟩ id
     (boxGeom 0 0 30 30) (boxGeom 0 0 20 20) 0 0 (by decide) (by decide) rfl rfl
     (by decide) (by decide)⟩

/-- Mapping over a list does not change whether it is empty. -/
lemma isEmpty_map {α β : Type} (f : α → β) (l : List α) :
    (l.map f).isEmpty = l.isEmpty := by
  cases l <;> rfl

/-- A row filter that only looks at the geometry column commutes with taking
the geometry column. -/
lemma map_geometry_filter {α : Type} (p : Option Geom → Bool) (fs : List (Feature α)) :
    (fs.filter fun f => p f.geometry).map Feature.geometry =
    (fs.map Feature.geometry).filter p := by
  induction fs with
  | nil => rfl
  | cons f l ih =>
      by_cases hp : p f.geometry = true
      · simp [List.filter_cons, hp, ih]
      · simp [List.filter_cons, hp, ih]

/-- The sanitizer acts on rows only through the geometry column: projecting
its result to geometries agrees with running the geometry-level sanitizer on
the projected input, in both success and failure. -/
lemma clean_polygons_map_geometry {α : Type} (buffer0 : Geom → Geom)
    (fs : List (Feature α)) :
    Except.map (List.map Feature.geometry) (_clean_polygons buffer0 fs) =
    _clean_geoms buffer0 (fs.map Feature.geometry) := by
  simp only [_clean_polygons, _clean_geoms]
  have e1 : (fs.filter fun f => geomOk f.geometry).map Feature.geometry =
      (fs.map Feature.geometry).filter geomOk := map_geometry_filter geomOk fs
  have hemp1 : (fs.filter fun f => geomOk f.geometry).isEmpty =
      ((fs.map Feature.geometry).filter geomOk).isEmpty := by
    rw [← e1, isEmpty_map]
  by_cases h1 : ((fs.map Feature.geometry).filter geomOk).isEmpty = true
  · rw [if_pos (hemp1.trans h1), if_pos h1]
    rfl
  · have h1' : ¬ (fs.filter fun f => geomOk f.geometry).isEmpty = true := by
      rw [hemp1]
      exact h1
    rw [if_neg h1', if_neg h1]
    have e2 : (((fs.filter fun f => geomOk f.geometry).map fun f =>
        { f with geometry := f.geometry.map buffer0 }).filter fun f =>
          geomNonEmpty f.geometry).map Feature.geometry =
        (((fs.map Feature.geometry).filter geomOk).map (Option.map buffer0)).filter
          geomNonEmpty := by
      rw [map_geometry_filter geomNonEmpty, List.map_map]
      have hcomp : (Feature.geometry ∘ fun f : Feature α =>
          { f with geometry := f.geometry.map buffer0 }) =
          (Option.map buffer0) ∘ Feature.geometry := rfl
      rw [hcomp, ← List.map_map, e1]
    have hemp2 : (((fs.filter fun f => geomOk f.geometry).map fun f =>
        { f with geometry := f.geometry.map buffer0 }).filter fun f =>
          geomNonEmpty f.geometry).isEmpty =
        ((((fs.map Feature.geometry).filter geomOk).map (Option.map buffer0)).filter
          geomNonEmpty).isEmpty := by
      rw [← e2, isEmpty_map]
    by_cases h2 : ((((fs.map Feature.geometry).filter geomOk).map
        (Option.map buffer0)).filter geomNonEmpty).isEmpty = true
    · rw [if_pos (hemp2.trans h2), if_pos h2]
      rfl
    · rw [if_neg (fun hh => h2 (hemp2.symm.trans hh)), if_neg h2]
      simp [Except.map, e2]

/-- The binary shape list depends only on the geometry column. -/
lemma binShapes_eq_geoms {α : Type} (c : List (Feature α)) (burn_value : ℤ) :
    binShapes c burn_value = (c.map Feature.geometry).filterMap fun og =>
      match og with
      | some g => if g.isEmpty then none else some (g, burn_value)
      | none => none := by
  induction c with
  | nil => rfl
  | cons f l ih =>
      rcases hg : f.geometry with _ | g
      · simp [binShapes, List.filterMap_cons, hg] at ih ⊢
        exact ih
      · by_cases he : g.isEmpty = true
        · simp [binShapes, List.filterMap_cons, hg, he] at ih ⊢
          exact ih
        · simp [binShapes, List.filterMap_cons, hg, he] at ih ⊢
          exact ih

/-- C9: the binary rasterizer reads nothing but the geometry column: two
feature collections with identical geometries and arbitrarily different
attribute columns produce identical outputs. -/
theorem binary_ignores_attributes {α β : Type} (grid : RasterGrid)
    (buffer0 : Geom → Geom) (fs1 : List (Feature α)) (fs2 : List (Feature β))
    (burn_value : ℤ)
    (h : fs1.map Feature.geometry = fs2.map Feature.geometry) :
    rasterize_geojson_binary grid buffer0 fs1 burn_value =
    rasterize_geojson_binary grid buffer0 fs2 burn_value := by
  have e3 : Except.map (List.map Feature.geometry) (_clean_polygons buffer0 fs1) =
      Except.map (List.map Feature.geometry) (_clean_polygons buffer0 fs2) := by
    rw [clean_polygons_map_geometry, clean_polygons_map_geometry, h]
  unfold rasterize_geojson_binary
  cases hc1 : _clean_polygons buffer0 fs1 with
  | error e =>
      cases hc2 : _clean_polygons buffer0 fs2 with
      | error e2 =>
          rw [hc1, hc2] at e3
          simp only [Except.map] at e3
          have he : e = e2 := by simpa using e3
          rw [he]
          rfl
      | ok c2 =>
          rw [hc1, hc2] at e3
          simp [Except.map] at e3
  | ok c1 =>
      cases hc2 : _clean_polygons buffer0 fs2 with
      | error e2 =>
          rw [hc1, hc2] at e3
          simp [Except.map] at e3
      | ok c2 =>
          rw [hc1, hc2] at e3
          simp only [Except.map] at e3
          have hg : c1.map Feature.geometry = c2.map Feature.geometry := by
            simpa using e3
          simp only [Except.bind]
          rw [binShapes_eq_geoms, binShapes_eq_geoms, hg]

/-- Witness for C9: same single box geometry, unit attributes versus an age
attribute. -/
theorem binary_ignores_attributes_witness :
    ([(⟨some (boxGeom 0 0 30 30), ()⟩ : Feature Unit)].map Feature.geometry =
      [(⟨some (boxGeom 0 0 30 30), .num 50⟩ : Feature AgeVal)].map Feature.geometry) ∧
    rasterize_geojson_binary ⟨defaultGridConfig, ⟨0, 0, 30, 30⟩, 1, 1⟩ id
      [(⟨some (boxGeom 0 0 30 30), ()⟩ : Feature Unit)] 1 =
    rasterize_geojson_binary ⟨defaultGridConfig, ⟨0, 0, 30, 30⟩, 1, 1⟩ id
      [(⟨some (boxGeom 0 0 30 30), .num 50⟩ : Feature AgeVal)] 1 :=
  ⟨rfl, binary_ignores_attributes ⟨defaultGridConfig, ⟨0, 0, 30, 30⟩, 1, 1⟩ id
    [⟨some (boxGeom 0 0 30 30), ()⟩] [⟨some (boxGeom 0 0 30 30), .num 50⟩] 1 rfl⟩
